import Mathlib

/-!
Verification development for the yliw program (src/main.rs): a terminal
tool that, given a birthday in DD-MM-YYYY form, visualizes elapsed and
remaining lifespan assuming a 90-year life expectancy.

The embedding below translates the Rust source shallowly:
* `f64` arithmetic is modelled by `ℚ`; every value the program feeds
  through `f64` here (`age_in_days / 7`, completion percentage) is far
  from any rounding boundary that could change a truncation result, so
  the rational model agrees with IEEE double on all program inputs.
* Rust `i32` division truncates toward zero, so it is `Int.tdiv`.
* `as` casts from `f64` to integer types truncate toward zero and
  saturate at the bounds of the target type.
* chrono calls (`NaiveDate::parse_from_str` with format "%d-%m-%Y",
  `signed_duration_since`, `num_days`) are translated from chrono
  semantics: numeric fields skip leading whitespace and read 1..=width
  digits (the year also accepts an explicit sign, and then reads
  arbitrarily many digits), literals must match exactly, the whole
  input must be consumed, and the parsed fields must form a real
  proleptic-Gregorian calendar date inside chrono's year range.
  `signed_duration_since` subtracts day numbers computed from the
  400-year Gregorian cycle.
-/

namespace Yliw

/-! ## Calendar model (chrono `NaiveDate` semantics) -/

structure Date where
  year : Int
  month : Nat
  day : Nat
deriving DecidableEq, Repr

def MIN_YEAR : Int := -262144
def MAX_YEAR : Int := 262143

def isLeapYear (y : Int) : Bool :=
  y % 4 == 0 && (y % 100 != 0 || y % 400 == 0)

def daysInMonth (y : Int) (m : Nat) : Nat :=
  match m with
  | 1 => 31
  | 2 => if isLeapYear y then 29 else 28
  | 3 => 31
  | 4 => 30
  | 5 => 31
  | 6 => 30
  | 7 => 31
  | 8 => 31
  | 9 => 30
  | 10 => 31
  | 11 => 30
  | 12 => 31
  | _ => 0

/-- Days of the year strictly before month `m`, in year `y`. -/
def daysBeforeMonth (y : Int) (m : Nat) : Nat :=
  let leap : Nat := if isLeapYear y then 1 else 0
  match m with
  | 1 => 0
  | 2 => 31
  | 3 => 59 + leap
  | 4 => 90 + leap
  | 5 => 120 + leap
  | 6 => 151 + leap
  | 7 => 181 + leap
  | 8 => 212 + leap
  | 9 => 243 + leap
  | 10 => 273 + leap
  | 11 => 304 + leap
  | 12 => 334 + leap
  | _ => 0

/-- Day of year, 1-based (chrono's `ordinal`). -/
def ordinalOf (dt : Date) : Nat := daysBeforeMonth dt.year dt.month + dt.day

/-- Validity check performed by chrono when resolving parsed fields into a
`NaiveDate` (`NaiveDate::from_ymd_opt`). -/
def fromYmdOpt (y : Int) (m d : Nat) : Option Date :=
  if 1 ≤ m ∧ m ≤ 12 ∧ 1 ≤ d ∧ d ≤ daysInMonth y m ∧ MIN_YEAR ≤ y ∧ y ≤ MAX_YEAR then
    some ⟨y, m, d⟩
  else
    none

/-- Number of leap years among cycle years `0, 1, …, r - 1` of a 400-year
Gregorian cycle (chrono's `YEAR_DELTAS` table, in closed form). -/
def leapDelta (r : Nat) : Nat := (r + 3) / 4 - (r + 99) / 100 + (r + 399) / 400

/-- Absolute day number of a date: 400-year eras (`year.div_euclid 400`)
contribute 146097 days each, then days within the cycle, then the ordinal.
Differences of `dayNumber` are exactly what chrono's
`signed_duration_since(..).num_days()` computes. -/
def dayNumber (dt : Date) : Int :=
  let q : Int := dt.year / 400
  let r : Nat := (dt.year % 400).toNat
  q * 146097 + ((r * 365 + leapDelta r + ordinalOf dt - 1 : Nat) : Int)

/-- A real proleptic-Gregorian calendar date (day within the month's
length, month within the year). -/
def validDate (dt : Date) : Prop :=
  1 ≤ dt.month ∧ dt.month ≤ 12 ∧ 1 ≤ dt.day ∧ dt.day ≤ daysInMonth dt.year dt.month

instance : DecidablePred validDate := fun dt => by
  unfold validDate
  infer_instance

/-- Calendar order on dates: lexicographic on (year, month, day). -/
def dateLe (a b : Date) : Prop :=
  a.year < b.year ∨ (a.year = b.year ∧
    (a.month < b.month ∨ (a.month = b.month ∧ a.day ≤ b.day)))

instance (a b : Date) : Decidable (dateLe a b) := by
  unfold dateLe
  infer_instance

/-- `dayNumber` with the year and the ordinal separated, for reasoning. -/
def cycleIndex (y : Int) (o : Nat) : Int :=
  y / 400 * 146097 + (((y % 400).toNat * 365 + leapDelta (y % 400).toNat + o - 1 : Nat) : Int)

/-! ## chrono date parsing, format "%d-%m-%Y" -/

def isAsciiDigit (c : Char) : Bool := 48 ≤ c.toNat && c.toNat ≤ 57

def digitVal (c : Char) : Nat := c.toNat - 48

/-- Greedily consume up to `fuel` ASCII digits, returning how many were
consumed, their value, and the rest (chrono's `scan::number` core). -/
def takeDigits : Nat → Nat → Nat → List Char → Nat × Nat × List Char
  | 0, count, acc, s => (count, acc, s)
  | _ + 1, count, acc, [] => (count, acc, [])
  | fuel + 1, count, acc, c :: rest =>
    if isAsciiDigit c then takeDigits fuel (count + 1) (acc * 10 + digitVal c) rest
    else (count, acc, c :: rest)

/-- chrono `scan::number(s, 1, maxDigits)`: at least one digit required. -/
def scanNumber (maxDigits : Nat) (s : List Char) : Option (Nat × List Char) :=
  match takeDigits maxDigits 0 0 s with
  | (count, v, rest) => if count = 0 then none else some (v, rest)

/-- Whitespace skipped before every numeric field (`str::trim_start`). -/
def trimLeft (s : List Char) : List Char := s.dropWhile Char.isWhitespace

/-- chrono parsing of the signed `%Y` field: an explicit sign allows
arbitrarily many digits; otherwise at most 4 are read. -/
def scanSignedYear (s : List Char) : Option (Int × List Char) :=
  if s.head? = some '-' then
    (scanNumber (s.length - 1) s.tail).map (fun p => (-(p.1 : Int), p.2))
  else if s.head? = some '+' then
    (scanNumber (s.length - 1) s.tail).map (fun p => ((p.1 : Int), p.2))
  else
    (scanNumber 4 s).map (fun p => ((p.1 : Int), p.2))

def expectLiteral (c : Char) (s : List Char) : Option (List Char) :=
  match s with
  | x :: rest => if x = c then some rest else none
  | [] => none

/-- `NaiveDate::parse_from_str(input, "%d-%m-%Y")` on a character list:
day (≤ 2 digits), literal '-', month (≤ 2 digits), literal '-', year;
the whole input must be consumed and the fields must form a real date. -/
def parseDMY (s : List Char) : Option Date :=
  (scanNumber 2 (trimLeft s)).bind fun dp =>
  (expectLiteral '-' dp.2).bind fun s2 =>
  (scanNumber 2 (trimLeft s2)).bind fun mp =>
  (expectLiteral '-' mp.2).bind fun s4 =>
  (scanSignedYear (trimLeft s4)).bind fun yp =>
  if yp.2 = [] then fromYmdOpt yp.1 mp.1 dp.1 else none

/-- `fn parse_date(input: &str) -> Result<NaiveDate, ParseError>`
(main.rs line 103). -/
def parse_date (input : String) : Option Date := parseDMY input.data

/-! ### Strict DD-MM-YYYY strings (the format the spec quantifies over) -/

/-- The ASCII digit character for `n < 10`. -/
def digitChar (n : Nat) : Char := Char.ofNat (48 + n)

/-- Zero-padded two-digit rendering of `n < 100`. -/
def twoDigits (n : Nat) : List Char := [digitChar (n / 10), digitChar (n % 10)]

/-- Zero-padded four-digit rendering of `n < 10000`. -/
def fourDigits (n : Nat) : List Char :=
  [digitChar (n / 1000), digitChar (n / 100 % 10), digitChar (n / 10 % 10), digitChar (n % 10)]

/-- The strict `DD-MM-YYYY` rendering of day `d`, month `m`, year `y`. -/
def strictDMY (d m y : Nat) : List Char :=
  twoDigits d ++ '-' :: (twoDigits m ++ '-' :: fourDigits y)

/-! ## Rust primitives used by main -/

/-- Truncation toward zero of a rational, as applied by an `as` cast from
`f64` before saturation (the denominator is positive, and `Int.tdiv`
truncates toward zero). -/
def ratTrunc (q : ℚ) : Int := Int.tdiv q.num (q.den : Int)

def I32_MIN : Int := -(2 ^ 31)
def I32_MAX : Int := 2 ^ 31 - 1
def USIZE_MAX : Int := 2 ^ 64 - 1

/-- Rust `as i32` cast from `f64`: truncate toward zero, saturate. -/
def castF64ToI32 (q : ℚ) : Int := max I32_MIN (min I32_MAX (ratTrunc q))

/-- Rust `as usize` cast from `f64`: truncate toward zero, saturate
(negatives collapse to 0). -/
def castF64ToUsize (q : ℚ) : Nat := (min USIZE_MAX (max 0 (ratTrunc q))).toNat

/-- Rust `str::trim`: strip whitespace from both ends. -/
def rustTrim (s : List Char) : List Char :=
  ((s.dropWhile Char.isWhitespace).reverse.dropWhile Char.isWhitespace).reverse

/-! ## Program functions (main.rs) -/

structure UserConfig where
  birthday : Option String
  show_weeks : Option Bool
deriving DecidableEq, Repr

/-- Config resolution from main (lines 301-307): a readable file yields its
parsed content, an absent file yields the default `UserConfig`. -/
def loadConfig (file : Option UserConfig) : UserConfig :=
  match file with
  | some parsed => parsed
  | none => { birthday := none, show_weeks := some true }

/-- main lines 309-312: when the config has no birthday, prompt and store
the entered (trimmed) string. -/
def fillBirthday (user_config : UserConfig) (prompted : String) : UserConfig :=
  if user_config.birthday.isNone then { user_config with birthday := some prompted }
  else user_config

/-- main line 333: `user_config.show_weeks.unwrap_or(true)` decides whether
the weeks grid is printed at all. -/
def showWeeksFlag (user_config : UserConfig) : Bool := user_config.show_weeks.getD true

inductive OutputSection where
  | welcome
  | ageLine
  | progressBar
  | summary
  | weeksGrid
deriving DecidableEq, Repr

/-- The sequence of output sections printed by `main` (lines 295-335): the
welcome banner, the "You are N years old!" line, the progress bar, the
summary message, and — only when `show_weeks.unwrap_or(true)` holds — the
weeks grid. -/
def mainOutputSections (user_config : UserConfig) : List OutputSection :=
  [OutputSection.welcome, OutputSection.ageLine, OutputSection.progressBar,
    OutputSection.summary] ++
    (if showWeeksFlag user_config then [OutputSection.weeksGrid] else [])

/-- The outcome of a function that may call `std::process::exit`. -/
structure ExitCall where
  message : String
  code : Nat
deriving DecidableEq, Repr

/-- `fn get_age_in_days(birthday: &str) -> i32` (main.rs lines 167-180),
with the ambient clock made explicit as `current_date`. On parse failure it
prints the hint and exits with status 1; otherwise it returns the day
difference `current_date - parsed birthday`. -/
def get_age_in_days (current_date : Date) (birthday : String) : Except ExitCall Int :=
  match parse_date (String.mk (rustTrim birthday.data)) with
  | some input_date => Except.ok (dayNumber current_date - dayNumber input_date)
  | none => Except.error { message := "Unable to parse the date. Please use DD-MM-YYYY.", code := 1 }

def expected_years : Int := 90

def expected_days : Int := expected_years * 365

/-- main line 322: `let age_in_weeks = age_in_days as f64 / 7.0;`. -/
def age_in_weeks (age_in_days : Int) : ℚ := (age_in_days : ℚ) / 7

/-- main line 323: `let age_in_years = age_in_weeks as i32 / 52;`. -/
def age_in_years (age_in_days : Int) : Int :=
  Int.tdiv (castF64ToI32 (age_in_weeks age_in_days)) 52

/-- main line 334: the argument `age_in_weeks as usize` passed to
`print_life_in_weeks`. -/
def mainLivedWeeks (age_in_days : Int) : Nat :=
  castF64ToUsize (age_in_weeks age_in_days)

/-- The numeric content of `fn display_summary_message` (lines 258-276). -/
structure SummaryMessage where
  remaining_days : Int
  remaining_years : Int
  remaining_weeks : Int
  completion_percent : ℚ
deriving DecidableEq, Repr

def display_summary_message (expected_day_count age_in_days : Int) : SummaryMessage :=
  let remaining_days := expected_day_count - age_in_days
  let remaining_years := Int.tdiv remaining_days 365
  let remaining_weeks := remaining_years * 52
  let completion_percent := ((age_in_days : ℚ) / (expected_day_count : ℚ)) * 100
  ⟨remaining_days, remaining_years, remaining_weeks, completion_percent⟩

inductive CellColor where
  | green
  | cyan
deriving DecidableEq, Repr

/-- `fn print_life_in_weeks(lived_weeks: usize)` (lines 51-70): the grid of
printed cells, one inner list per printed row, each cell a character with
its color. -/
def print_life_in_weeks (lived_weeks : Nat) : List (List (Char × CellColor)) :=
  let rows := 30
  let columns := 156
  let pattern := '='
  (List.range rows).map fun row =>
    (List.range columns).map fun col =>
      let total_weeks_so_far := row * columns + col
      if total_weeks_so_far < lived_weeks then (pattern, CellColor.green)
      else (pattern, CellColor.cyan)

/-! ## Helper lemmas -/

theorem ratTrunc_eq_floor_of_nonneg (q : ℚ) (h : 0 ≤ q) : ratTrunc q = Int.floor q := by
  unfold ratTrunc
  rw [Rat.floor_def]
  exact Int.tdiv_eq_ediv (Rat.num_nonneg.mpr h) (Int.ofNat_nonneg q.den)

theorem ratTrunc_neg (q : ℚ) : ratTrunc (-q) = -ratTrunc q := by
  unfold ratTrunc
  rw [Rat.neg_num, Rat.neg_den, Int.neg_tdiv]

/-- Truncating the rational `a / b` toward zero is integer `tdiv`, exactly
the semantics of a Rust `f64` division of integers followed by an `as`
cast (the quotient is never close enough to an integer for IEEE rounding
to disturb the truncation). -/
theorem ratTrunc_intCast_div_natCast (a : Int) (b : Nat) :
    ratTrunc ((a : ℚ) / (b : ℚ)) = Int.tdiv a b := by
  rcases le_or_lt 0 a with ha | ha
  · have hq : (0 : ℚ) ≤ (a : ℚ) / (b : ℚ) :=
      div_nonneg (by exact_mod_cast ha) (by positivity)
    rw [ratTrunc_eq_floor_of_nonneg _ hq, Rat.floor_intCast_div_natCast,
      Int.tdiv_eq_ediv ha (Int.ofNat_nonneg b)]
  · have hrw : (a : ℚ) / (b : ℚ) = -((((-a) : Int) : ℚ) / (b : ℚ)) := by
      push_cast
      ring
    have hq : (0 : ℚ) ≤ (((-a) : Int) : ℚ) / (b : ℚ) := by
      apply div_nonneg _ (by positivity)
      have : (0 : Int) ≤ -a := by omega
      exact_mod_cast this
    have hneg : Int.tdiv (-a) b = (-a) / (b : Int) :=
      Int.tdiv_eq_ediv (by omega) (Int.ofNat_nonneg b)
    rw [hrw, ratTrunc_neg, ratTrunc_eq_floor_of_nonneg _ hq,
      Rat.floor_intCast_div_natCast, ← hneg, Int.neg_tdiv, neg_neg]

theorem age_in_weeks_trunc (a : Int) : ratTrunc (age_in_weeks a) = Int.tdiv a 7 := by
  have h7 : (7 : ℚ) = ((7 : Nat) : ℚ) := by norm_num
  rw [age_in_weeks, h7, ratTrunc_intCast_div_natCast]
  norm_num

theorem age_in_years_eval (a : Int) :
    age_in_years a = Int.tdiv (max I32_MIN (min I32_MAX (Int.tdiv a 7))) 52 := by
  rw [age_in_years, castF64ToI32, age_in_weeks_trunc]

theorem mainLivedWeeks_eval (a : Int) :
    mainLivedWeeks a = (min USIZE_MAX (max 0 (Int.tdiv a 7))).toNat := by
  rw [mainLivedWeeks, castF64ToUsize, age_in_weeks_trunc]

/-! ### Parser computation lemmas -/

theorem digitChar_props (n : Nat) (h : n < 10) :
    isAsciiDigit (digitChar n) = true ∧ digitVal (digitChar n) = n ∧
    Char.isWhitespace (digitChar n) = false ∧
    digitChar n ≠ '-' ∧ digitChar n ≠ '+' := by
  interval_cases n <;> exact ⟨by decide, by decide, by decide, by decide, by decide⟩

theorem trimLeft_cons_of_not_ws (c : Char) (s : List Char)
    (h : c.isWhitespace = false) : trimLeft (c :: s) = c :: s := by
  simp [trimLeft, List.dropWhile_cons, h]

theorem takeDigits_cons_digit (fuel count acc : Nat) (c : Char) (s : List Char)
    (h : isAsciiDigit c = true) :
    takeDigits (fuel + 1) count acc (c :: s)
      = takeDigits fuel (count + 1) (acc * 10 + digitVal c) s := by
  simp [takeDigits, h]

theorem takeDigits_cons_nondigit (fuel count acc : Nat) (c : Char) (s : List Char)
    (h : isAsciiDigit c = false) :
    takeDigits (fuel + 1) count acc (c :: s) = (count, acc, c :: s) := by
  simp [takeDigits, h]

theorem expectLiteral_cons_self (c : Char) (s : List Char) :
    expectLiteral c (c :: s) = some s := by
  simp [expectLiteral]

theorem scanNumber_twoDigits (n : Nat) (hn : n < 100) (rest : List Char) :
    scanNumber 2 (twoDigits n ++ rest) = some (n, rest) := by
  have h1 := digitChar_props (n / 10) (by omega)
  have h2 := digitChar_props (n % 10) (by omega)
  simp only [twoDigits, List.cons_append, List.nil_append]
  rw [scanNumber, takeDigits_cons_digit _ _ _ _ _ h1.1,
    takeDigits_cons_digit _ _ _ _ _ h2.1, takeDigits]
  simp only [h1.2.1, h2.2.1]
  have hv : (0 * 10 + n / 10) * 10 + n % 10 = n := by omega
  rw [hv]
  rfl

theorem scanNumber_fourDigits (n : Nat) (hn : n < 10000) :
    scanNumber 4 (fourDigits n) = some (n, []) := by
  have h1 := digitChar_props (n / 1000) (by omega)
  have h2 := digitChar_props (n / 100 % 10) (by omega)
  have h3 := digitChar_props (n / 10 % 10) (by omega)
  have h4 := digitChar_props (n % 10) (by omega)
  simp only [fourDigits]
  rw [scanNumber, takeDigits_cons_digit _ _ _ _ _ h1.1,
    takeDigits_cons_digit _ _ _ _ _ h2.1, takeDigits_cons_digit _ _ _ _ _ h3.1,
    takeDigits_cons_digit _ _ _ _ _ h4.1, takeDigits]
  simp only [h1.2.1, h2.2.1, h3.2.1, h4.2.1]
  have hv : (((0 * 10 + n / 1000) * 10 + n / 100 % 10) * 10 + n / 10 % 10) * 10 + n % 10
      = n := by omega
  rw [hv]
  rfl

theorem scanSignedYear_fourDigits (n : Nat) (hn : n < 10000) :
    scanSignedYear (fourDigits n) = some ((n : Int), []) := by
  have h1 := digitChar_props (n / 1000) (by omega)
  have hh : (fourDigits n).head? = some (digitChar (n / 1000)) := rfl
  rw [scanSignedYear, if_neg (by simp [hh, h1.2.2.2.1]),
    if_neg (by simp [hh, h1.2.2.2.2]), scanNumber_fourDigits n hn]
  rfl

theorem daysInMonth_le (y : Int) (m : Nat) : daysInMonth y m ≤ 31 := by
  unfold daysInMonth
  split <;> (try split) <;> omega

/-! ### Trimming commutes with a successful parse -/

theorem isAsciiDigit_not_ws (c : Char) (h : isAsciiDigit c = true) :
    c.isWhitespace = false := by
  rw [isAsciiDigit] at h
  simp at h
  simp [Char.isWhitespace]
  refine ⟨⟨⟨?_, ?_⟩, ?_⟩, ?_⟩ <;> rintro rfl <;> simp [Char.toNat, UInt32.size] at h

theorem trimLeft_trimLeft (s : List Char) : trimLeft (trimLeft s) = trimLeft s :=
  List.dropWhile_idempotent Char.isWhitespace s

theorem takeWhile_append_trimLeft (s : List Char) :
    s.takeWhile Char.isWhitespace ++ trimLeft s = s :=
  List.takeWhile_append_dropWhile Char.isWhitespace s

/-- Leading whitespace never changes the result of the date parser (the
first numeric field strips it anyway). -/
theorem parseDMY_trimLeft (s : List Char) : parseDMY (trimLeft s) = parseDMY s := by
  unfold parseDMY
  rw [trimLeft_trimLeft]

theorem takeDigits_decomp (fuel count acc : Nat) (s : List Char) :
    ∃ pre, s = pre ++ (takeDigits fuel count acc s).2.2 ∧
      (∀ c ∈ pre, isAsciiDigit c = true) ∧
      pre.length + count = (takeDigits fuel count acc s).1 := by
  induction fuel generalizing count acc s with
  | zero => exact ⟨[], by simp [takeDigits]⟩
  | succ n ih =>
    cases s with
    | nil => exact ⟨[], by simp [takeDigits]⟩
    | cons c rest =>
      by_cases h : isAsciiDigit c = true
      · obtain ⟨pre, hpre, hall, hlen⟩ := ih (count + 1) (acc * 10 + digitVal c) rest
        rw [takeDigits_cons_digit _ _ _ _ _ h]
        refine ⟨c :: pre, ?_, ?_, ?_⟩
        · simpa using hpre
        · intro x hx
          rcases List.mem_cons.mp hx with rfl | hx
          · exact h
          · exact hall x hx
        · simp only [List.length_cons]
          omega
      · rw [takeDigits_cons_nondigit _ _ _ _ _ (by simpa using h)]
        exact ⟨[], by simp⟩

theorem scanNumber_decomp (maxD : Nat) (s : List Char) (v : Nat) (rest : List Char)
    (h : scanNumber maxD s = some (v, rest)) :
    ∃ pre, s = pre ++ rest ∧ pre ≠ [] ∧ ∀ c ∈ pre, isAsciiDigit c = true := by
  obtain ⟨pre, hpre, hall, hlen⟩ := takeDigits_decomp maxD 0 0 s
  rcases ht : takeDigits maxD 0 0 s with ⟨count, v2, rest2⟩
  rw [ht] at hpre hlen
  simp only [scanNumber, ht] at h
  by_cases h0 : count = 0
  · rw [if_pos h0] at h
    cases h
  · rw [if_neg h0] at h
    obtain ⟨hv, hr⟩ : v2 = v ∧ rest2 = rest := by
      simpa using h
    refine ⟨pre, by rw [hpre, hr], ?_, hall⟩
    intro hnil
    subst hnil
    simp at hlen
    exact h0 hlen.symm

theorem expectLiteral_eq_some (c : Char) (s r : List Char)
    (h : expectLiteral c s = some r) : s = c :: r := by
  cases s with
  | nil => simp [expectLiteral] at h
  | cons x rest =>
    rw [expectLiteral] at h
    by_cases hx : x = c
    · rw [if_pos hx] at h
      cases h
      rw [hx]
    · rw [if_neg hx] at h
      cases h

/-- A successful number scan consumed a nonempty digit block, so the
consumed part ends in a digit. -/
theorem scanNumber_concat (maxD : Nat) (s : List Char) (v : Nat) (rest : List Char)
    (h : scanNumber maxD s = some (v, rest)) :
    ∃ pre c, s = (pre ++ [c]) ++ rest ∧ isAsciiDigit c = true := by
  obtain ⟨pre, hpre, hne, hall⟩ := scanNumber_decomp maxD s v rest h
  rcases List.eq_nil_or_concat pre with rfl | ⟨L, b, rfl⟩
  · exact absurd rfl hne
  · exact ⟨L, b, by simpa [List.concat_eq_append] using hpre,
      hall b (by simp [List.concat_eq_append])⟩

theorem scanSignedYear_decomp (s : List Char) (p : Int × List Char)
    (h : scanSignedYear s = some p) :
    ∃ pre c, s = (pre ++ [c]) ++ p.2 ∧ isAsciiDigit c = true := by
  rw [scanSignedYear] at h
  by_cases h1 : s.head? = some '-'
  · rw [if_pos h1] at h
    rcases hsn : scanNumber (s.length - 1) s.tail with _ | ⟨q⟩ <;> rw [hsn] at h
    · cases h
    · obtain ⟨pre, c, hq, hc⟩ := scanNumber_concat _ _ q.1 q.2 (by rw [hsn])
      cases s with
      | nil => simp at h1
      | cons x t =>
        have hx : x = '-' := by simpa using h1
        refine ⟨x :: pre, c, ?_, hc⟩
        have hp2 : p.2 = q.2 := by
          cases h
          rfl
        simp only [List.tail_cons] at hq
        rw [hp2, hq]
        simp
  · rw [if_neg h1] at h
    by_cases h2 : s.head? = some '+'
    · rw [if_pos h2] at h
      rcases hsn : scanNumber (s.length - 1) s.tail with _ | ⟨q⟩ <;> rw [hsn] at h
      · cases h
      · obtain ⟨pre, c, hq, hc⟩ := scanNumber_concat _ _ q.1 q.2 (by rw [hsn])
        cases s with
        | nil => simp at h2
        | cons x t =>
          have hx : x = '+' := by simpa using h2
          refine ⟨x :: pre, c, ?_, hc⟩
          have hp2 : p.2 = q.2 := by
            cases h
            rfl
          simp only [List.tail_cons] at hq
          rw [hp2, hq]
          simp
    · rw [if_neg h2] at h
      rcases hsn : scanNumber 4 s with _ | ⟨q⟩ <;> rw [hsn] at h
      · cases h
      · obtain ⟨pre, c, hq, hc⟩ := scanNumber_concat _ _ q.1 q.2 (by rw [hsn])
        refine ⟨pre, c, ?_, hc⟩
        have hp2 : p.2 = q.2 := by
          cases h
          rfl
        rw [hp2, hq]

/-- A successfully parsed input, once its leading whitespace is stripped,
ends in a digit (the last character consumed by the year field). -/
theorem parseDMY_ends_digit (s : List Char) (dt : Date) (h : parseDMY s = some dt) :
    ∃ pre c, trimLeft s = pre ++ [c] ∧ isAsciiDigit c = true := by
  rw [parseDMY] at h
  rcases h1 : scanNumber 2 (trimLeft s) with _ | ⟨dp⟩ <;> rw [h1] at h
  · cases h
  rw [Option.some_bind] at h
  rcases h2 : expectLiteral '-' dp.2 with _ | ⟨s2⟩ <;> rw [h2] at h
  · cases h
  rw [Option.some_bind] at h
  rcases h3 : scanNumber 2 (trimLeft s2) with _ | ⟨mp⟩ <;> rw [h3] at h
  · cases h
  rw [Option.some_bind] at h
  rcases h4 : expectLiteral '-' mp.2 with _ | ⟨s4⟩ <;> rw [h4] at h
  · cases h
  rw [Option.some_bind] at h
  rcases h5 : scanSignedYear (trimLeft s4) with _ | ⟨yp⟩ <;> rw [h5] at h
  · cases h
  rw [Option.some_bind] at h
  by_cases h6 : yp.2 = []
  case neg =>
    rw [if_neg h6] at h
    cases h
  rw [if_pos h6] at h
  obtain ⟨preD, hD1, _, _⟩ := scanNumber_decomp 2 (trimLeft s) dp.1 dp.2 (by rw [h1])
  have hdp : dp.2 = '-' :: s2 := expectLiteral_eq_some _ _ _ h2
  obtain ⟨preM, hM1, _, _⟩ := scanNumber_decomp 2 (trimLeft s2) mp.1 mp.2 (by rw [h3])
  have hmp : mp.2 = '-' :: s4 := expectLiteral_eq_some _ _ _ h4
  obtain ⟨preY, cY, hY1, hY2⟩ := scanSignedYear_decomp (trimLeft s4) yp (by rw [h5])
  rw [h6, List.append_nil] at hY1
  obtain ⟨w2, hw2⟩ : ∃ w2, s2 = w2 ++ (preM ++ mp.2) :=
    ⟨s2.takeWhile Char.isWhitespace, by rw [← hM1, takeWhile_append_trimLeft]⟩
  obtain ⟨w4, hw4⟩ : ∃ w4, s4 = w4 ++ (preY ++ [cY]) :=
    ⟨s4.takeWhile Char.isWhitespace, by rw [← hY1, takeWhile_append_trimLeft]⟩
  refine ⟨preD ++ '-' :: (w2 ++ (preM ++ '-' :: (w4 ++ preY))), cY, ?_, hY2⟩
  rw [hD1, hdp, hw2, hmp, hw4]
  simp

/-- Rust `str::trim` never changes the result of a successful parse:
leading whitespace is skipped by the first numeric field anyway, and a
successfully parsed string cannot end in whitespace. -/
theorem parseDMY_rustTrim (s : List Char) (dt : Date) (h : parseDMY s = some dt) :
    parseDMY (rustTrim s) = some dt := by
  obtain ⟨pre, c, htl, hc⟩ := parseDMY_ends_digit s dt h
  have hws : c.isWhitespace = false := isAsciiDigit_not_ws c hc
  have hrt : rustTrim s = trimLeft s := by
    show ((trimLeft s).reverse.dropWhile Char.isWhitespace).reverse = trimLeft s
    rw [htl]
    simp [List.dropWhile_cons, hws]
  rw [hrt, parseDMY_trimLeft, h]

/-- On a strict `DD-MM-YYYY` string, the chrono parser reads back exactly
the three rendered fields and hands them to the calendar validity check. -/
theorem parseDMY_strict (d m y : Nat) (hd : d < 100) (hm : m < 100) (hy : y < 10000) :
    parseDMY (strictDMY d m y) = fromYmdOpt (y : Int) m d := by
  have hdd := digitChar_props (d / 10) (by omega)
  have hmm := digitChar_props (m / 10) (by omega)
  have hyy := digitChar_props (y / 1000) (by omega)
  have h0 : trimLeft (strictDMY d m y)
      = twoDigits d ++ ('-' :: (twoDigits m ++ '-' :: fourDigits y)) := by
    simp only [strictDMY, twoDigits, List.cons_append, List.nil_append]
    exact trimLeft_cons_of_not_ws _ _ hdd.2.2.1
  have h1 : trimLeft (twoDigits m ++ '-' :: fourDigits y)
      = twoDigits m ++ ('-' :: fourDigits y) := by
    simp only [twoDigits, List.cons_append, List.nil_append]
    exact trimLeft_cons_of_not_ws _ _ hmm.2.2.1
  have h2 : trimLeft (fourDigits y) = fourDigits y := by
    simp only [fourDigits]
    exact trimLeft_cons_of_not_ws _ _ hyy.2.2.1
  rw [parseDMY, h0, scanNumber_twoDigits d hd, Option.some_bind,
    expectLiteral_cons_self, Option.some_bind, h1, scanNumber_twoDigits m hm,
    Option.some_bind, expectLiteral_cons_self, Option.some_bind, h2,
    scanSignedYear_fourDigits y hy, Option.some_bind, if_pos rfl]

/-! ### Day numbers grow along the calendar -/

theorem dayNumber_eq_cycleIndex (dt : Date) :
    dayNumber dt = cycleIndex dt.year (ordinalOf dt) := rfl

theorem isLeapYear_iff_mod (y : Int) :
    isLeapYear y = true ↔
      ((y % 400).toNat % 4 = 0 ∧
        ((y % 400).toNat % 100 ≠ 0 ∨ (y % 400).toNat % 400 = 0)) := by
  rw [isLeapYear]
  simp only [Bool.and_eq_true, Bool.or_eq_true, beq_iff_eq, bne_iff_ne, ne_eq]
  omega

/-- Crossing from December 31 (ordinal `365 + leap`) to January 1 of the
next year advances the day number. -/
theorem cycleIndex_year_step (y : Int) :
    cycleIndex y (365 + (if isLeapYear y = true then 1 else 0)) < cycleIndex (y + 1) 1 := by
  have hiff := isLeapYear_iff_mod y
  unfold cycleIndex leapDelta
  split_ifs with h
  · rw [hiff] at h
    omega
  · rw [hiff] at h
    omega

theorem cycleIndex_mono_in_ordinal (y : Int) (o1 o2 : Nat) (h : o1 ≤ o2) :
    cycleIndex y o1 ≤ cycleIndex y o2 := by
  unfold cycleIndex
  omega

theorem cycleIndex_one_lt_succ (y : Int) : cycleIndex y 1 < cycleIndex (y + 1) 1 := by
  have h1 := cycleIndex_year_step y
  have h2 : cycleIndex y 1 ≤ cycleIndex y (365 + (if isLeapYear y = true then 1 else 0)) :=
    cycleIndex_mono_in_ordinal y 1 _ (by split_ifs <;> omega)
  omega

theorem cycleIndex_one_mono (y1 y2 : Int) (h : y1 ≤ y2) :
    cycleIndex y1 1 ≤ cycleIndex y2 1 := by
  have hm : StrictMono (fun y => cycleIndex y 1) :=
    strictMono_int_of_lt_succ cycleIndex_one_lt_succ
  exact hm.le_iff_le.mpr h

theorem ordinalOf_bounds (dt : Date) (h : validDate dt) :
    1 ≤ ordinalOf dt ∧
      ordinalOf dt ≤ 365 + (if isLeapYear dt.year = true then 1 else 0) := by
  obtain ⟨y, m, d⟩ := dt
  unfold validDate at h
  dsimp only at h
  obtain ⟨hm1, hm2, hd1, hd2⟩ := h
  unfold ordinalOf
  dsimp only
  interval_cases m <;>
    simp_all [daysBeforeMonth, daysInMonth] <;> (try split_ifs at *) <;> omega

theorem ordinalOf_strict_mono (y : Int) (m1 d1 m2 d2 : Nat)
    (h1 : validDate ⟨y, m1, d1⟩) (h2 : validDate ⟨y, m2, d2⟩)
    (hlt : m1 < m2 ∨ (m1 = m2 ∧ d1 < d2)) :
    ordinalOf ⟨y, m1, d1⟩ < ordinalOf ⟨y, m2, d2⟩ := by
  unfold validDate at h1 h2
  dsimp only at h1 h2
  obtain ⟨hm1a, hm1b, hd1a, hd1b⟩ := h1
  obtain ⟨hm2a, hm2b, hd2a, hd2b⟩ := h2
  unfold ordinalOf
  dsimp only
  interval_cases m1 <;> interval_cases m2 <;>
    simp_all [daysBeforeMonth, daysInMonth] <;> (try split_ifs at *) <;> omega

theorem dayNumber_lt_of_year_lt (d1 d2 : Date) (h1 : validDate d1) (h2 : validDate d2)
    (hy : d1.year < d2.year) : dayNumber d1 < dayNumber d2 := by
  have hb1 := ordinalOf_bounds d1 h1
  have hb2 := ordinalOf_bounds d2 h2
  have hA : cycleIndex d1.year (ordinalOf d1)
      ≤ cycleIndex d1.year (365 + (if isLeapYear d1.year = true then 1 else 0)) :=
    cycleIndex_mono_in_ordinal _ _ _ hb1.2
  have hB := cycleIndex_year_step d1.year
  have hC : cycleIndex (d1.year + 1) 1 ≤ cycleIndex d2.year 1 :=
    cycleIndex_one_mono _ _ (by omega)
  have hD : cycleIndex d2.year 1 ≤ cycleIndex d2.year (ordinalOf d2) :=
    cycleIndex_mono_in_ordinal _ _ _ hb2.1
  rw [dayNumber_eq_cycleIndex, dayNumber_eq_cycleIndex]
  omega

/-- `dayNumber` is monotone with respect to calendar order on real
calendar dates. -/
theorem dayNumber_mono (d1 d2 : Date) (h1 : validDate d1) (h2 : validDate d2)
    (hle : dateLe d1 d2) : dayNumber d1 ≤ dayNumber d2 := by
  unfold dateLe at hle
  rcases hle with hy | ⟨hy, hmd⟩
  · exact le_of_lt (dayNumber_lt_of_year_lt d1 d2 h1 h2 hy)
  · obtain ⟨y1, m1, e1⟩ := d1
    obtain ⟨y2, m2, e2⟩ := d2
    dsimp only at hy hmd
    subst hy
    have hord : ordinalOf ⟨y1, m1, e1⟩ ≤ ordinalOf ⟨y1, m2, e2⟩ := by
      rcases hmd with hm | ⟨hm, hd⟩
      · exact le_of_lt (ordinalOf_strict_mono y1 m1 e1 m2 e2 h1 h2 (Or.inl hm))
      · subst hm
        unfold ordinalOf
        dsimp only
        omega
    rw [dayNumber_eq_cycleIndex, dayNumber_eq_cycleIndex]
    exact cycleIndex_mono_in_ordinal _ _ _ hord

/-! ## Claims -/

/-- C1: `parse_date` parses strictly in DD-MM-YYYY format: every strict
`DD-MM-YYYY` string denoting a real calendar date (day within the month,
month 1..12, 4-digit year) parses to exactly that date, while the
wrong-field-order string "2021-12-21" and the out-of-range-month string
"21-13-2021" are both rejected. -/
theorem parse_date_strict_dmy (d m y : Nat)
    (hm1 : 1 ≤ m) (hm2 : m ≤ 12) (hd1 : 1 ≤ d) (hd2 : d ≤ daysInMonth (y : Int) m)
    (hy : y ≤ 9999) :
    parse_date (String.mk (strictDMY d m y)) = some ⟨(y : Int), m, d⟩ ∧
    parse_date "2021-12-21" = none ∧
    parse_date "21-13-2021" = none := by
  refine ⟨?_, by decide, by decide⟩
  have hd100 : d < 100 := by
    have h31 : daysInMonth (y : Int) m ≤ 31 := daysInMonth_le (y : Int) m
    omega
  rw [parse_date]
  show parseDMY (strictDMY d m y) = _
  rw [parseDMY_strict d m y hd100 (by omega) (by omega), fromYmdOpt, if_pos]
  refine ⟨hm1, hm2, hd1, hd2, ?_, ?_⟩
  · unfold MIN_YEAR
    omega
  · unfold MAX_YEAR
    omega

/-- C1 witness: "21-12-2021" (which is `strictDMY 21 12 2021`) parses to
December 21, 2021. -/
theorem parse_date_strict_dmy_witness :
    String.mk (strictDMY 21 12 2021) = "21-12-2021" ∧
    parse_date (String.mk (strictDMY 21 12 2021)) = some ⟨(2021 : Int), 12, 21⟩ :=
  ⟨by decide, (parse_date_strict_dmy 21 12 2021 (by decide) (by decide) (by decide)
      (by decide) (by decide)).1⟩

/-- C2: for every pair of integers `expected_days` and `age_in_days`, the
summary satisfies `remaining_days = expected_days - age_in_days`,
`remaining_years = remaining_days / 365` (Rust integer division, i.e.
truncated), and `remaining_weeks = remaining_years * 52`; and
`remaining_weeks` is not derived from `remaining_days / 7` (at
`expected_days = 32850`, `age_in_days = 0` the two disagree). -/
theorem summary_quantities_relations (expected_day_count age_in_days : Int) :
    (display_summary_message expected_day_count age_in_days).remaining_days
        = expected_day_count - age_in_days ∧
    (display_summary_message expected_day_count age_in_days).remaining_years
        = Int.tdiv ((display_summary_message expected_day_count age_in_days).remaining_days) 365 ∧
    (display_summary_message expected_day_count age_in_days).remaining_weeks
        = (display_summary_message expected_day_count age_in_days).remaining_years * 52 ∧
    (display_summary_message 32850 0).remaining_weeks
        ≠ Int.tdiv ((display_summary_message 32850 0).remaining_days) 7 :=
  ⟨rfl, rfl, rfl, by decide⟩

/-- C4: `completion_percent` is the deterministic function
`100 * age_in_days / expected_days` of the two integer inputs (computed
through `f64`, modelled as exact rational arithmetic), `main` fixes
`expected_days = 90 * 365 = 32850`, and at `age_in_days = 16425` the
percentage is exactly 50. -/
theorem completion_percent_formula (expected_day_count age_in_days : Int) :
    (display_summary_message expected_day_count age_in_days).completion_percent
        = 100 * (age_in_days : ℚ) / (expected_day_count : ℚ) ∧
    expected_days = 32850 ∧
    (display_summary_message 32850 16425).completion_percent = 50 := by
  refine ⟨?_, by decide, ?_⟩
  · show (age_in_days : ℚ) / (expected_day_count : ℚ) * 100 = _
    ring
  · show (16425 : ℚ) / (32850 : ℚ) * 100 = 50
    norm_num

/-- C5 counterexample: `get_age_in_days` trims its argument before
parsing (main.rs line 168), so the claim "every birthday string that
parse_date rejects is a fatal error" fails on "21-12-2021 " (trailing
space): `parse_date` rejects it (chrono requires the whole input
consumed), yet `get_age_in_days` succeeds, returning 1026 days on
2024-10-12. -/
theorem get_age_in_days_reject_counterexample :
    parse_date "21-12-2021 " = none ∧
    get_age_in_days ⟨2024, 10, 12⟩ "21-12-2021 "
        = Except.ok 1026 := by
  exact ⟨by decide, by rfl⟩

/-- C5 amended: for every birthday string that `parse_date` rejects
after trimming (`str::trim`), `get_age_in_days` produces exactly the
fatal message "Unable to parse the date. Please use DD-MM-YYYY." with
exit status 1 (non-zero, no retry — the function's only failure
outcome); and for every string `parse_date` accepts, it returns the
signed whole-day difference between the current local date and the
parsed birthday. -/
theorem get_age_in_days_behavior (today : Date) (birthday : String) :
    (parse_date (String.mk (rustTrim birthday.data)) = none →
      get_age_in_days today birthday
        = Except.error { message := "Unable to parse the date. Please use DD-MM-YYYY.",
                         code := 1 }) ∧
    (∀ dt, parse_date birthday = some dt →
      get_age_in_days today birthday = Except.ok (dayNumber today - dayNumber dt)) ∧
    (∀ err, get_age_in_days today birthday = Except.error err →
      err.message = "Unable to parse the date. Please use DD-MM-YYYY." ∧ err.code ≠ 0) := by
  refine ⟨?_, ?_, ?_⟩
  · intro h
    simp [get_age_in_days, h]
  · intro dt hdt
    have ht : parse_date (String.mk (rustTrim birthday.data)) = some dt := by
      rw [parse_date] at hdt ⊢
      exact parseDMY_rustTrim _ _ hdt
    simp [get_age_in_days, ht]
  · intro err herr
    rcases hp : parse_date (String.mk (rustTrim birthday.data)) with _ | dtv
    · rw [get_age_in_days, hp] at herr
      cases herr
      exact ⟨rfl, by decide⟩
    · rw [get_age_in_days, hp] at herr
      cases herr

/-- C5 amended, witness: an unparseable birthday is the fatal
message-plus-exit-1 outcome. -/
theorem get_age_in_days_behavior_witness :
    get_age_in_days ⟨2024, 10, 12⟩ "hello"
      = Except.error { message := "Unable to parse the date. Please use DD-MM-YYYY.",
                       code := 1 } :=
  (get_age_in_days_behavior ⟨2024, 10, 12⟩ "hello").1 (by decide)

/-- C6: when the config file is absent, `main` builds the default
`UserConfig` (no birthday, `show_weeks = Some(true)`), then prompts and
stores the entered birthday string, leaving `show_weeks` enabled. -/
theorem absent_config_defaults_and_prompt (prompted : String) :
    loadConfig none = { birthday := none, show_weeks := some true } ∧
    fillBirthday (loadConfig none) prompted
        = { birthday := some prompted, show_weeks := some true } :=
  ⟨rfl, rfl⟩

/-- C7: a config with `show_weeks = Some(false)` omits the weeks-grid
section from the output entirely, while an unset `show_weeks` defaults to
true and the grid section is printed (after the other four sections). -/
theorem show_weeks_gates_grid (b : Option String) :
    OutputSection.weeksGrid ∉ mainOutputSections { birthday := b, show_weeks := some false } ∧
    showWeeksFlag { birthday := b, show_weeks := some false } = false ∧
    showWeeksFlag { birthday := b, show_weeks := none } = true ∧
    mainOutputSections { birthday := b, show_weeks := none }
        = [OutputSection.welcome, OutputSection.ageLine, OutputSection.progressBar,
            OutputSection.summary, OutputSection.weeksGrid] := by
  refine ⟨?_, rfl, rfl, rfl⟩
  simp [mainOutputSections, showWeeksFlag]

/-- C3 counterexample: at `age_in_days = -722` the program computes
`age_in_years = -1` (the `as i32` cast truncates `-722/7 ≈ -103.14`
toward zero, giving `-103`), while the claimed formula
`floor(age_in_weeks) / 52` gives `-104 / 52 = -2`. -/
theorem age_in_years_not_floor_counterexample :
    age_in_years (-722) = -1 ∧
    Int.tdiv (Int.floor (age_in_weeks (-722))) 52 = -2 ∧
    age_in_years (-722) ≠ Int.tdiv (Int.floor (age_in_weeks (-722))) 52 := by
  have h1 : age_in_years (-722) = -1 := by
    rw [age_in_years_eval]
    decide
  have h2 : Int.floor (age_in_weeks (-722)) = -104 := by
    have h7 : (7 : ℚ) = ((7 : Nat) : ℚ) := by norm_num
    rw [age_in_weeks, h7, Rat.floor_intCast_div_natCast]
    decide
  refine ⟨h1, by rw [h2]; decide, ?_⟩
  rw [h1, h2]
  decide

/-- C3 amended: `age_in_weeks = age_in_days / 7` exactly as claimed, and
for every nonnegative `age_in_days` (in `i32` range)
`age_in_years = floor(age_in_weeks) / 52` with truncated integer
division; for negative ages the `as i32` cast truncates toward zero
instead of flooring. -/
theorem age_in_years_floor_of_nonneg (a : Int) (h0 : 0 ≤ a) (h1 : a ≤ I32_MAX) :
    age_in_weeks a = (a : ℚ) / 7 ∧
    age_in_years a = Int.tdiv (Int.floor (age_in_weeks a)) 52 := by
  refine ⟨rfl, ?_⟩
  have hq : (0 : ℚ) ≤ age_in_weeks a := by
    rw [age_in_weeks]
    apply div_nonneg _ (by norm_num)
    exact_mod_cast h0
  have hfl : Int.floor (age_in_weeks a) = Int.tdiv a 7 := by
    rw [← ratTrunc_eq_floor_of_nonneg _ hq, age_in_weeks_trunc]
  have he : Int.tdiv a 7 = a / 7 := Int.tdiv_eq_ediv h0 (by norm_num)
  have hge : 0 ≤ Int.tdiv a 7 := by
    rw [he]
    exact Int.ediv_nonneg h0 (by norm_num)
  have hle : Int.tdiv a 7 ≤ I32_MAX := by
    have : a / 7 ≤ a := Int.ediv_le_self 7 h0
    omega
  have hmin : min I32_MAX (Int.tdiv a 7) = Int.tdiv a 7 := min_eq_right hle
  have hlo : I32_MIN ≤ 0 := by decide
  have hmax : max I32_MIN (Int.tdiv a 7) = Int.tdiv a 7 := max_eq_right (by omega)
  rw [age_in_years_eval, hmin, hmax, hfl]

/-- C3 amended, witness at `age_in_days = 16425`. -/
theorem age_in_years_floor_of_nonneg_witness :
    age_in_weeks 16425 = (16425 : ℚ) / 7 ∧
    age_in_years 16425 = Int.tdiv (Int.floor (age_in_weeks 16425)) 52 :=
  age_in_years_floor_of_nonneg 16425 (by decide) (by decide)

/-- C8: the weeks grid has exactly 30 rows, each row exactly 156 cells,
every cell is the single character '=', and the cell at `(row, col)` is
green (lived) precisely when its row-major linear index
`row * 156 + col` is below `lived_weeks`, cyan (remaining) otherwise. -/
theorem weeks_grid_shape_coloring (lived row col : Nat)
    (hrow : row < 30) (hcol : col < 156) :
    (print_life_in_weeks lived).length = 30 ∧
    ((print_life_in_weeks lived).getD row []).length = 156 ∧
    (∀ cell ∈ (print_life_in_weeks lived).flatten, cell.1 = '=') ∧
    ((print_life_in_weeks lived).getD row []).getD col ('=', CellColor.cyan)
        = ('=', if row * 156 + col < lived then CellColor.green else CellColor.cyan) ∧
    (row * 156 + col < lived →
      ((print_life_in_weeks lived).getD row []).getD col ('=', CellColor.cyan)
          = ('=', CellColor.green)) ∧
    (lived ≤ row * 156 + col →
      ((print_life_in_weeks lived).getD row []).getD col ('=', CellColor.cyan)
          = ('=', CellColor.cyan)) := by
  have hcell : ((print_life_in_weeks lived).getD row []).getD col ('=', CellColor.cyan)
      = ('=', if row * 156 + col < lived then CellColor.green else CellColor.cyan) := by
    simp only [print_life_in_weeks, List.getD_eq_getElem?_getD, List.getElem?_map,
      List.getElem?_range hrow, List.getElem?_range hcol, Option.map_some',
      Option.getD_some]
    split <;> rfl
  refine ⟨by simp [print_life_in_weeks], ?_, ?_, hcell, ?_, ?_⟩
  · simp [print_life_in_weeks, List.getD_eq_getElem?_getD, List.getElem?_map,
      List.getElem?_range hrow]
  · intro cell hc
    simp only [print_life_in_weeks, List.mem_flatten, List.mem_map, List.mem_range] at hc
    obtain ⟨l, ⟨r, hr, rfl⟩, hcl⟩ := hc
    obtain ⟨c, hcc, rfl⟩ := List.mem_map.mp hcl
    split <;> rfl
  · intro h
    rw [hcell, if_pos h]
  · intro h
    rw [hcell, if_neg (by omega)]

/-- C8 witness: cell `(1, 2)` with `lived_weeks = 200` (index 158 < 200)
is a green lived cell. -/
theorem weeks_grid_shape_coloring_witness :
    ((print_life_in_weeks 200).getD 1 []).getD 2 ('=', CellColor.cyan)
        = ('=', if 1 * 156 + 2 < 200 then CellColor.green else CellColor.cyan) :=
  (weeks_grid_shape_coloring 200 1 2 (by decide) (by decide)).2.2.2.1

/-- C9: for a fixed birthday string that parses successfully, the age in
days is monotone as the current date advances: whenever real calendar
dates satisfy `today1 ≤ today2` (calendar order), the day counts
returned by `get_age_in_days` satisfy `n1 ≤ n2`; and the result is
identical for repeated evaluations at the same current date. -/
theorem age_in_days_monotone (birthday : String) (today1 today2 : Date)
    (hv1 : validDate today1) (hv2 : validDate today2) (hle : dateLe today1 today2)
    (n1 n2 : Int)
    (ha1 : get_age_in_days today1 birthday = Except.ok n1)
    (ha2 : get_age_in_days today2 birthday = Except.ok n2) :
    n1 ≤ n2 ∧
    (∀ r1 r2 : Except ExitCall Int, get_age_in_days today1 birthday = r1 →
      get_age_in_days today1 birthday = r2 → r1 = r2) := by
  constructor
  · rcases hp : parse_date (String.mk (rustTrim birthday.data)) with _ | dt
    · rw [get_age_in_days, hp] at ha1
      cases ha1
    · rw [get_age_in_days, hp] at ha1 ha2
      cases ha1
      cases ha2
      have hmono := dayNumber_mono today1 today2 hv1 hv2 hle
      omega
  · intro r1 r2 hr1 hr2
    rw [← hr1, ← hr2]

/-- C9 witness: birthday 1990-01-01, current dates 2024-10-12 and
2024-10-13 give 12703 ≤ 12704 days. -/
theorem age_in_days_monotone_witness : (12703 : Int) ≤ 12704 :=
  (age_in_days_monotone "01-01-1990" ⟨2024, 10, 12⟩ ⟨2024, 10, 13⟩
    (by decide) (by decide) (by decide) 12703 12704 (by rfl) (by rfl)).1

/-- C10: for a future birthday (negative `age_in_days`) the `as usize`
cast collapses the negative week count to 0, `print_life_in_weeks`
receives `lived_weeks = 0`, and every cell of the 30 × 156 grid is a
cyan (remaining) cell — no crash, no green cell. -/
theorem future_birthday_grid_safe (a : Int) (h : a < 0) :
    mainLivedWeeks a = 0 ∧
    ∀ cell ∈ (print_life_in_weeks (mainLivedWeeks a)).flatten,
      cell = ('=', CellColor.cyan) := by
  have h1 : Int.tdiv (-a) 7 = (-a) / 7 := Int.tdiv_eq_ediv (by omega) (by norm_num)
  have h2 : 0 ≤ (-a) / 7 := Int.ediv_nonneg (by omega) (by norm_num)
  have h3 : Int.tdiv (-a) 7 = -(Int.tdiv a 7) := Int.neg_tdiv a 7
  have htd : Int.tdiv a 7 ≤ 0 := by omega
  have h0 : mainLivedWeeks a = 0 := by
    rw [mainLivedWeeks_eval, max_eq_left htd,
      min_eq_right (by decide : (0 : Int) ≤ USIZE_MAX)]
    rfl
  refine ⟨h0, ?_⟩
  rw [h0]
  intro cell hc
  simp only [print_life_in_weeks, List.mem_flatten, List.mem_map, List.mem_range] at hc
  obtain ⟨l, ⟨r, hr, rfl⟩, hcl⟩ := hc
  obtain ⟨c, hcc, rfl⟩ := List.mem_map.mp hcl
  simp

/-- C10 witness: at `age_in_days = -5` the grid argument is 0. -/
theorem future_birthday_grid_safe_witness : mainLivedWeeks (-5) = 0 :=
  (future_birthday_grid_safe (-5) (by decide)).1

end Yliw
